import Mathlib

/-!
Verification development for the Heavenly-Angel Discord bot
(`src/Invalid-bot/index.js` and the earlier revision `src/unnamed/part_001`).

The development shallowly embeds the bot's pure logic:

* JavaScript `Set` / `Map` semantics over `List` (insertion order kept,
  `Set.add` is idempotent, `Map.set` updates in place, `new Set`/`new Map`
  constructors deduplicate);
* `calculateHypixelLevel` and `formatHypixelRank` (pure classifiers);
* the `verify_modal` submit handler, `unverify_button` handler, and the
  JSON-file storage layer (`loadStorage` / `saveStorage`) of `index.js`;
* the `!verify` cooldown gate and `!ha` relay of the `part_001` revision.

Numbers are embedded as `Nat` (timestamps in epoch milliseconds, network
experience as a non-negative integer); JavaScript string truthiness is
modelled explicitly (`none` and `some ""` are falsy).
-/

namespace HeavenlyAngel

/-- JavaScript truthiness of an optional string: `undefined`/`null` and the
empty string are falsy. -/
def truthy : Option String → Bool
  | none => false
  | some s => s ≠ ""

/-- JavaScript `a || d` for an optional string `a`: the default is taken when
`a` is absent or falsy (empty). -/
def jsOr (a : Option String) (d : String) : String :=
  match a with
  | none => d
  | some s => if s = "" then d else s

/-- JavaScript `Set.prototype.add`: appends the element unless already
present (insertion order preserved). -/
def jsSetAdd (l : List String) (x : String) : List String :=
  if x ∈ l then l else l ++ [x]

/-- JavaScript `Set.prototype.delete`: removes the element. -/
def jsSetDelete (l : List String) (x : String) : List String :=
  l.filter (fun y => y ≠ x)

/-- The `new Set(array)` constructor: iterates over the array adding each element, so
duplicates collapse to their first occurrence. -/
def jsSetFrom (l : List String) : List String :=
  l.foldl jsSetAdd []

/-- JavaScript `Map.prototype.set`: updates the value in place when the key
exists (keeping its position), otherwise appends the pair. -/
def jsMapSet : List (String × Nat) → String → Nat → List (String × Nat)
  | [], k, v => [(k, v)]
  | (k', v') :: rest, k, v =>
      if k' = k then (k, v) :: rest else (k', v') :: jsMapSet rest k v

/-- JavaScript `Map.prototype.delete`: removes the entry with the key. -/
def jsMapDelete (l : List (String × Nat)) (k : String) : List (String × Nat) :=
  l.filter (fun p => p.1 ≠ k)

/-- JavaScript `Map.prototype.get`: the value at the key, if any. -/
def jsMapGet (l : List (String × Nat)) (k : String) : Option Nat :=
  (l.find? (fun p => p.1 = k)).map Prod.snd

/-- The `new Map(entries)` constructor: iterates over the entries calling `set`, so a
repeated key keeps its first position but the last value. -/
def jsMapFrom (l : List (String × Nat)) : List (String × Nat) :=
  l.foldl (fun m p => jsMapSet m p.1 p.2) []

/-- The raw Hypixel profile attributes read by the classifier and the
verification flow (`playerData` in the source): the special-rank tag
(`rank`), the monthly-subscription tag (`monthlyPackageRank`), the purchased
rank (`newPackageRank`), the MVP+ plus-colour override (`rankPlusColor`),
network experience, and the linked social-media accounts. Absent JSON
fields are `none`. -/
structure Links where
  DISCORD : Option String

/-- The `playerData.socialMedia` object. -/
structure SocialMedia where
  links : Option Links

/-- See the doc comment on `Links` above; `playerData` of the source. -/
structure PlayerData where
  rank : Option String
  monthlyPackageRank : Option String
  newPackageRank : Option String
  rankPlusColor : Option String
  networkExp : Option Nat
  socialMedia : Option SocialMedia

/-- The display rank returned by `formatHypixelRank`:
`{ name, color, plusColor }`. -/
structure RankDisplay where
  name : String
  color : String
  plusColor : String
deriving DecidableEq, Repr

/-- The `rankMapping` lookup table of `formatHypixelRank` (index.js lines
127–144): object indexing `rankMapping[tag]` yields `none` for an unknown
tag. The `SUPERSTAR` and `MVP_PLUS` entries read
`playerData?.rankPlusColor || "#FFAA00"`. -/
def rankMapping (p : PlayerData) (tag : String) : Option RankDisplay :=
  if tag = "SUPERSTAR" then some ⟨"MVP++", "#FFAA00", jsOr p.rankPlusColor "#FFAA00"⟩
  else if tag = "MVP_PLUS" then some ⟨"MVP+", "#00AAAA", jsOr p.rankPlusColor "#FFAA00"⟩
  else if tag = "MVP" then some ⟨"MVP", "#00AAAA", "#00AAAA"⟩
  else if tag = "VIP_PLUS" then some ⟨"VIP+", "#00AA00", "#00AA00"⟩
  else if tag = "VIP" then some ⟨"VIP", "#00AA00", "#00AA00"⟩
  else if tag = "YOUTUBER" then some ⟨"YOUTUBER", "#FF5555", "#FF5555"⟩
  else if tag = "ADMIN" then some ⟨"ADMIN", "#FF5555", "#FF5555"⟩
  else if tag = "MODERATOR" then some ⟨"MODERATOR", "#00AAAA", "#00AAAA"⟩
  else none

/-- Function `formatHypixelRank` (index.js lines 126–189): the ordered priority
chain — special rank (truthy and not `"NORMAL"`), then
`monthlyPackageRank === "SUPERSTAR"`, then any other truthy monthly tag not
`"NONE"`, then a truthy purchased rank, then the `"Non-Rank"` fallback.
Each lookup falls back to a neutral-gray display built from the tag text. -/
def formatHypixelRank (p : PlayerData) : RankDisplay :=
  if truthy p.rank ∧ p.rank ≠ some "NORMAL" then
    (rankMapping p (p.rank.getD "")).getD ⟨p.rank.getD "", "#AAAAAA", "#AAAAAA"⟩
  else if p.monthlyPackageRank = some "SUPERSTAR" then
    (rankMapping p "SUPERSTAR").getD ⟨"", "", ""⟩
  else if truthy p.monthlyPackageRank ∧ p.monthlyPackageRank ≠ some "NONE" then
    (rankMapping p (p.monthlyPackageRank.getD "")).getD
      ⟨p.monthlyPackageRank.getD "", "#AAAAAA", "#AAAAAA"⟩
  else if truthy p.newPackageRank then
    (rankMapping p (p.newPackageRank.getD "")).getD
      ⟨p.newPackageRank.getD "", "#AAAAAA", "#AAAAAA"⟩
  else ⟨"Non-Rank", "#AAAAAA", "#AAAAAA"⟩

/-- Function `calculateHypixelLevel` (index.js lines 120–123):
`Math.floor(Math.sqrt(2*networkExp + 30625)/50 - 2.5)`.  Embedded over `Nat`
via integer square root and floor division; the theorem for C6 proves this
equals the exact real-number formula. -/
def calculateHypixelLevel (networkExp : Nat) : Nat :=
  (Nat.sqrt (2 * networkExp + 30625) - 125) / 50

/-- The JSON backing file `verifiedUsers.json`:
`{ verifiedUsers: [userId...], cooldowns: [[userId, epochMillis]...] }`.
`JSON.stringify`/`JSON.parse` round-trips this structured data exactly, so
the file is embedded as the structured data itself. -/
structure StorageData where
  verifiedUsers : List String
  cooldowns : List (String × Nat)
deriving DecidableEq, Repr

/-- The bot's mutable state: the in-memory `verifiedUsers` set, the
in-memory `cooldowns` map, and the persisted file. -/
structure SystemState where
  verifiedUsers : List String
  cooldowns : List (String × Nat)
  file : StorageData
deriving DecidableEq, Repr

/-- Function `saveStorage` (index.js lines 66–72): serializes `Array.from` of the
in-memory set and map and overwrites the backing file. -/
def saveStorage (st : SystemState) : SystemState :=
  { st with file := ⟨st.verifiedUsers, st.cooldowns⟩ }

/-- Function `loadStorage` (index.js lines 46–63), existing-file path: parses the
file and rebuilds the in-memory state with `new Set(...)` / `new Map(...)`. -/
def loadStorage (st : SystemState) : SystemState :=
  { st with
    verifiedUsers := jsSetFrom st.file.verifiedUsers
    cooldowns := jsMapFrom st.file.cooldowns }

/-- The store mutation of the `verify_modal` success path (index.js lines
858–869): `verifiedUsers.add` then `saveStorage()`, then — for non-admins
only — `cooldowns.set(userId, Date.now() + 6*60*60*1000)` and a second
`saveStorage()`. -/
def verifyStoreMutation (st : SystemState) (uid : String) (now : Nat)
    (isAdmin : Bool) : SystemState :=
  let st1 := saveStorage { st with verifiedUsers := jsSetAdd st.verifiedUsers uid }
  if isAdmin then st1
  else saveStorage { st1 with cooldowns := jsMapSet st1.cooldowns uid (now + 6 * 60 * 60 * 1000) }

/-- The store mutation of the `unverify_button` handler (index.js lines
676–680): delete the user from both collections, then `saveStorage()`. -/
def unverifyStoreMutation (st : SystemState) (uid : String) : SystemState :=
  saveStorage
    { st with
      verifiedUsers := jsSetDelete st.verifiedUsers uid
      cooldowns := jsMapDelete st.cooldowns uid }

/-- The ephemeral replies of the `verify_modal` submit handler. -/
inductive ModalReply
  | mojangFail
  | hypixelFail
  | notLinked
  | success
deriving DecidableEq, Repr

/-- The user-facing message text of each `verify_modal` reply (index.js
lines 756–760, 766–769, 780–784, 872–875). -/
def modalReplyText : ModalReply → String
  | .mojangFail => "Failed to fetch UUID from Mojang API. Please check your Minecraft name."
  | .hypixelFail => "Failed to fetch Hypixel data. Please try again later."
  | .notLinked => "Please link your Discord to your Hypixel profile in social media."
  | .success => "Verification successful!"

/-- A role grant or revoke issued against the Discord guild. -/
inductive RoleAction
  | add (roleName : String)
  | remove (roleName : String)
deriving DecidableEq, Repr

/-- The Discord-link check of the modal handler (index.js lines 773–777):
`socialMedia && socialMedia.links && socialMedia.links.DISCORD ===
interaction.user.tag`. -/
def discordLinked (p : PlayerData) (tag : String) : Bool :=
  match p.socialMedia with
  | none => false
  | some sm =>
    match sm.links with
    | none => false
    | some l => l.DISCORD = some tag

/-- A Hypixel guild object as returned by the guild fetch. -/
structure Guild where
  name : String
  tag : String

/-- The `verify_modal` submit handler (index.js lines 745–877), with the
external lookups passed in as their results: `uuid` from the Mojang call,
`playerData` from the Hypixel call, `guildData` from the guild call,
`now` the clock, `isAdmin` the Administrator permission check.  Returns the
new state, the ephemeral reply, and the list of role actions issued (in
program order). -/
def verifyModalSubmit (st : SystemState) (uid tag : String)
    (uuid : Option String) (playerData : Option PlayerData)
    (guildData : Option Guild) (now : Nat) (isAdmin : Bool) :
    SystemState × ModalReply × List RoleAction :=
  match uuid with
  | none => (st, .mojangFail, [])
  | some _ =>
    match playerData with
    | none => (st, .hypixelFail, [])
    | some p =>
      if discordLinked p tag then
        let guildName := jsOr (guildData.map Guild.name) "No Guild"
        let roleActions :=
          [RoleAction.add "✅• Verified", RoleAction.remove "❌• Unverified"] ++
          (if guildName = "Heavenly Spirits" then [RoleAction.add "👼 • Angel"] else [])
        (verifyStoreMutation st uid now isAdmin, .success, roleActions)
      else (st, .notLinked, [])

/-- The store operations of index.js, for the state-store invariant: the
verify success mutation, the unverify mutation, `loadStorage`, and
`saveStorage`. -/
inductive StoreOp
  | verify (uid : String) (now : Nat) (isAdmin : Bool)
  | unverify (uid : String)
  | load
  | persist

/-- Apply one store operation. -/
def applyOp (st : SystemState) : StoreOp → SystemState
  | .verify uid now isAdmin => verifyStoreMutation st uid now isAdmin
  | .unverify uid => unverifyStoreMutation st uid
  | .load => loadStorage st
  | .persist => saveStorage st

/-- The empty initial store: fresh in-memory state and the file as first
created by `loadStorage` (`{ verifiedUsers: [], cooldowns: [] }`). -/
def initialState : SystemState := ⟨[], [], ⟨[], []⟩⟩

/-- Cooldown-implies-verified, over one set/map pair. -/
def covInv (verified : List String) (cooldowns : List (String × Nat)) : Prop :=
  ∀ kv ∈ cooldowns, kv.1 ∈ verified

/-- The C3 invariant on the whole system: it holds of the in-memory store
and of the persisted file. -/
def stateInv (st : SystemState) : Prop :=
  covInv st.verifiedUsers st.cooldowns ∧ covInv st.file.verifiedUsers st.file.cooldowns

/-- The replies of the `!verify` command handler of the `part_001`
revision (lines 232–300). -/
inductive VerifyCmdReply
  | cooldownNotice (hours : Nat)
  | unverifyPrompt
  | verifyPrompt
deriving DecidableEq, Repr

/-- The `!verify` command handler of the `part_001` revision (lines
239–290), state-relevant part: if the author is verified and a truthy
cooldown satisfies `Date.now() < cooldown` while the author is not an
administrator, reply with the remaining-hours notice
(`Math.ceil((cooldown - now)/1000/60/60)`); otherwise (still verified)
offer the unverify confirmation prompt; an unverified author gets the
verify prompt.  No branch mutates the state, so only the reply is
returned. -/
def verifyCommand (verified : List String) (cooldowns : List (String × Nat))
    (uid : String) (now : Nat) (isAdmin : Bool) : VerifyCmdReply :=
  if uid ∈ verified then
    match jsMapGet cooldowns uid with
    | some c =>
      if c ≠ 0 ∧ now < c ∧ isAdmin = false then
        .cooldownNotice ((c - now + 3600000 - 1) / 3600000)
      else .unverifyPrompt
    | none => .unverifyPrompt
  else .verifyPrompt

/-- The observable outcome of the `!ha` messageCreate handler. -/
inductive HaAction
  | noOp
  | roleMissing
  | noPermission
  | emptyError
  | relay (text : String)
deriving DecidableEq, Repr

/-- JavaScript `String.prototype.startsWith`, character-wise. -/
def jsStartsWith (s pre : String) : Bool :=
  pre.data.isPrefixOf s.data

/-- The whitespace characters stripped by JavaScript `trim()` (the ASCII
ones; the handler's texts involve only these). -/
def jsWhitespace (c : Char) : Bool :=
  c = ' ' ∨ c = '\t' ∨ c = '\n' ∨ c = '\r'

/-- JavaScript `String.prototype.trim`: strip leading and trailing
whitespace. -/
def jsTrim (s : String) : String :=
  String.mk (((s.data.dropWhile jsWhitespace).reverse.dropWhile jsWhitespace).reverse)

/-- The `!ha` announcement relay handler (index.js lines 584–628 and
part_001 lines 303–347, identical): fires whenever the content starts with
`"!ha"`; after the role checks, relays `content.slice("!ha".length).trim()`,
or replies with an error when that text is empty. -/
def haCommand (content : String) (roleExists hasPermission : Bool) : HaAction :=
  if jsStartsWith content "!ha" then
    if !roleExists then .roleMissing
    else if !hasPermission then .noPermission
    else
      let text := jsTrim (content.drop "!ha".length)
      if text = "" then .emptyError else .relay text
  else .noOp

/-- Whether the handler deletes the invoking message: only the successful
relay path does (`message.delete()` after `channel.send(text)`). -/
def deletesInvokingMessage : HaAction → Bool
  | .relay _ => true
  | _ => false

/-! ### Lemmas about the JavaScript collection semantics -/

theorem jsSetAdd_mem_self (l : List String) (x : String) : x ∈ jsSetAdd l x := by
  unfold jsSetAdd
  split
  · assumption
  · simp

theorem jsSetAdd_mem_of_mem {l : List String} {y : String} (x : String)
    (h : y ∈ l) : y ∈ jsSetAdd l x := by
  unfold jsSetAdd
  split
  · assumption
  · simp [h]

theorem jsMapSet_mem {l : List (String × Nat)} {k : String} {v : Nat} :
    ∀ kv ∈ jsMapSet l k v, kv = (k, v) ∨ kv ∈ l := by
  induction l with
  | nil => simp [jsMapSet]
  | cons hd tl ih =>
    intro kv hkv
    rw [jsMapSet] at hkv
    split at hkv
    · rcases List.mem_cons.1 hkv with h | h
      · exact Or.inl h
      · exact Or.inr (List.mem_cons_of_mem _ h)
    · rcases List.mem_cons.1 hkv with h | h
      · exact Or.inr (h ▸ List.mem_cons_self _ _)
      · rcases ih kv h with h' | h'
        · exact Or.inl h'
        · exact Or.inr (List.mem_cons_of_mem _ h')

theorem jsMapGet_jsMapSet_self (l : List (String × Nat)) (k : String) (v : Nat) :
    jsMapGet (jsMapSet l k v) k = some v := by
  induction l with
  | nil => simp [jsMapSet, jsMapGet, List.find?]
  | cons hd tl ih =>
    rw [jsMapSet]
    split
    · simp [jsMapGet, List.find?]
    · rename_i hne
      rw [jsMapGet, List.find?_cons_of_neg _ (by simpa using hne)]
      exact ih

theorem jsMapSet_fst_mem {l : List (String × Nat)} {k : String} {v : Nat} :
    ∀ kv ∈ jsMapSet l k v, kv.1 = k ∨ kv.1 ∈ l.map Prod.fst := by
  intro kv hkv
  rcases jsMapSet_mem kv hkv with h | h
  · exact Or.inl (by rw [h])
  · exact Or.inr (List.mem_map_of_mem _ h)

theorem foldl_jsMapSet_fst_mem {l : List (String × Nat)} :
    ∀ {acc : List (String × Nat)} {kv : String × Nat},
    kv ∈ l.foldl (fun m p => jsMapSet m p.1 p.2) acc →
    kv.1 ∈ acc.map Prod.fst ∨ kv.1 ∈ l.map Prod.fst := by
  induction l with
  | nil =>
    intro acc kv h
    exact Or.inl (List.mem_map_of_mem _ h)
  | cons hd tl ih =>
    intro acc kv h
    rcases ih h with h' | h'
    · rcases List.mem_map.1 h' with ⟨p, hp, hfst⟩
      rcases jsMapSet_mem p hp with h'' | h''
      · right
        rw [← hfst, h'']
        simp
      · left
        rw [← hfst]
        exact List.mem_map_of_mem _ h''
    · right
      simp [h']

theorem jsMapFrom_fst_mem {l : List (String × Nat)} {kv : String × Nat}
    (h : kv ∈ jsMapFrom l) : kv.1 ∈ l.map Prod.fst := by
  rcases @foldl_jsMapSet_fst_mem l [] kv h with h' | h'
  · simp at h'
  · exact h'

theorem foldl_jsSetAdd_mem {l : List String} :
    ∀ {acc : List String} {x : String},
    (x ∈ acc ∨ x ∈ l) → x ∈ l.foldl jsSetAdd acc := by
  induction l with
  | nil =>
    intro acc x h
    rcases h with h | h
    · exact h
    · simp at h
  | cons hd tl ih =>
    intro acc x h
    apply ih
    rcases h with h | h
    · exact Or.inl (jsSetAdd_mem_of_mem _ h)
    · rcases List.mem_cons.1 h with h | h
      · exact Or.inl (h ▸ jsSetAdd_mem_self _ _)
      · exact Or.inr h

theorem jsSetFrom_mem_of_mem {l : List String} {x : String} (h : x ∈ l) :
    x ∈ jsSetFrom l :=
  foldl_jsSetAdd_mem (Or.inr h)

theorem jsSetAdd_eq_append {l : List String} {x : String} (h : x ∉ l) :
    jsSetAdd l x = l ++ [x] := by
  simp [jsSetAdd, h]

theorem foldl_jsSetAdd_eq {l : List String} :
    ∀ {acc : List String}, l.Nodup → (∀ x ∈ l, x ∉ acc) →
    l.foldl jsSetAdd acc = acc ++ l := by
  induction l with
  | nil =>
    intro acc _ _
    simp
  | cons hd tl ih =>
    intro acc hnd hdisj
    have hhd : hd ∉ acc := hdisj hd (by simp)
    rw [List.foldl_cons, jsSetAdd_eq_append hhd,
      ih (List.nodup_cons.1 hnd).2 ?_]
    · simp
    · intro x hx
      simp only [List.mem_append, List.mem_singleton]
      rintro (hxa | hxhd)
      · exact hdisj x (by simp [hx]) hxa
      · exact (List.nodup_cons.1 hnd).1 (hxhd ▸ hx)

theorem jsSetFrom_eq_self {l : List String} (h : l.Nodup) : jsSetFrom l = l := by
  have := @foldl_jsSetAdd_eq l [] h (by simp)
  simpa [jsSetFrom] using this

theorem jsMapSet_eq_append {l : List (String × Nat)} {k : String} {v : Nat}
    (h : k ∉ l.map Prod.fst) : jsMapSet l k v = l ++ [(k, v)] := by
  induction l with
  | nil => simp [jsMapSet]
  | cons hd tl ih =>
    simp only [List.map_cons, List.mem_cons] at h
    push_neg at h
    rw [jsMapSet, if_neg (fun he => h.1 he.symm), ih h.2]
    simp

theorem foldl_jsMapSet_eq {l : List (String × Nat)} :
    ∀ {acc : List (String × Nat)}, (l.map Prod.fst).Nodup →
    (∀ k ∈ l.map Prod.fst, k ∉ acc.map Prod.fst) →
    l.foldl (fun m p => jsMapSet m p.1 p.2) acc = acc ++ l := by
  induction l with
  | nil =>
    intro acc _ _
    simp
  | cons hd tl ih =>
    intro acc hnd hdisj
    have hhd : hd.1 ∉ acc.map Prod.fst := hdisj hd.1 (by simp)
    rw [List.foldl_cons, jsMapSet_eq_append hhd,
      ih (by simpa using (List.nodup_cons.1 (by simpa using hnd)).2) ?_]
    · simp
    · intro k hk
      simp only [List.map_append, List.mem_append, List.map_cons, List.map_nil,
        List.mem_singleton]
      rintro (hka | hkhd)
      · exact hdisj k (by simp [hk]) hka
      · have hne : k ≠ hd.1 :=
          fun he => (List.nodup_cons.1 (by simpa using hnd)).1 (he ▸ hk)
        exact hne hkhd

theorem jsMapFrom_eq_self {l : List (String × Nat)}
    (h : (l.map Prod.fst).Nodup) : jsMapFrom l = l := by
  have := @foldl_jsMapSet_eq l [] h (by simp)
  simpa [jsMapFrom] using this

theorem covInv_add (v : List String) (c : List (String × Nat)) (uid : String)
    (x : Nat) (h : covInv v c) :
    covInv (jsSetAdd v uid) (jsMapSet c uid x) := by
  intro kv hkv
  rcases jsMapSet_mem kv hkv with h' | h'
  · rw [h']
    exact jsSetAdd_mem_self _ _
  · exact jsSetAdd_mem_of_mem _ (h kv h')

theorem covInv_add_only (v : List String) (c : List (String × Nat))
    (uid : String) (h : covInv v c) : covInv (jsSetAdd v uid) c :=
  fun kv hkv => jsSetAdd_mem_of_mem _ (h kv hkv)

theorem covInv_delete (v : List String) (c : List (String × Nat))
    (uid : String) (h : covInv v c) :
    covInv (jsSetDelete v uid) (jsMapDelete c uid) := by
  intro kv hkv
  rcases List.mem_filter.1 hkv with ⟨hkc, hne⟩
  exact List.mem_filter.2 ⟨h kv hkc, hne⟩

theorem covInv_from (v : List String) (c : List (String × Nat))
    (h : covInv v c) : covInv (jsSetFrom v) (jsMapFrom c) := by
  intro kv hkv
  rcases List.mem_map.1 (jsMapFrom_fst_mem hkv) with ⟨p, hp, hfst⟩
  exact jsSetFrom_mem_of_mem (hfst ▸ h p hp)

theorem stateInv_applyOp {st : SystemState} (op : StoreOp) (h : stateInv st) :
    stateInv (applyOp st op) := by
  obtain ⟨hm, hf⟩ := h
  cases op with
  | verify uid now isAdmin =>
    show stateInv (verifyStoreMutation st uid now isAdmin)
    rw [verifyStoreMutation]
    cases isAdmin with
    | true =>
      exact ⟨covInv_add_only _ _ _ hm, covInv_add_only _ _ _ hm⟩
    | false =>
      exact ⟨covInv_add _ _ _ _ hm, covInv_add _ _ _ _ hm⟩
  | unverify uid =>
    exact ⟨covInv_delete _ _ _ hm, covInv_delete _ _ _ hm⟩
  | load =>
    exact ⟨covInv_from _ _ hf, hf⟩
  | persist =>
    exact ⟨hm, hm⟩

theorem stateInv_foldl (ops : List StoreOp) :
    ∀ st : SystemState, stateInv st → stateInv (ops.foldl applyOp st) := by
  induction ops with
  | nil =>
    intro st h
    exact h
  | cons op rest ih =>
    intro st h
    exact ih _ (stateInv_applyOp op h)

/-- C4: when the special-rank tag is present (truthy) and not `"NORMAL"`,
`formatHypixelRank` is independent of the monthly and purchased rank tags —
first match wins in the priority chain; in particular a profile with
`rank = "ADMIN"` and `monthlyPackageRank = "SUPERSTAR"` is labelled
`"ADMIN"`, not `"MVP++"`. -/
theorem formatHypixelRank_special_rank_priority (p : PlayerData) (m n : Option String)
    (hp : truthy p.rank = true) (hn : p.rank ≠ some "NORMAL") :
    formatHypixelRank { p with monthlyPackageRank := m, newPackageRank := n } =
      formatHypixelRank p ∧
    (formatHypixelRank ⟨some "ADMIN", some "SUPERSTAR", none, none, none, none⟩).name
      = "ADMIN" := by
  constructor
  · obtain ⟨r, mo, np, rpc, ne, sm⟩ := p
    cases r with
    | none => simp [truthy] at hp
    | some str =>
      simp only [formatHypixelRank]
      rw [if_pos ⟨hp, hn⟩, if_pos ⟨hp, hn⟩]
      rfl
  · rfl

/-- Witness for C4 at a concrete profile: `rank = "YOUTUBER"` beats
`monthlyPackageRank = "SUPERSTAR"` and `newPackageRank = "VIP"`. -/
theorem formatHypixelRank_special_rank_priority_witness :
    formatHypixelRank ⟨some "YOUTUBER", some "SUPERSTAR", some "VIP", none, none, none⟩ =
      formatHypixelRank ⟨some "YOUTUBER", none, none, none, none, none⟩ ∧
    (formatHypixelRank ⟨some "ADMIN", some "SUPERSTAR", none, none, none, none⟩).name
      = "ADMIN" :=
  formatHypixelRank_special_rank_priority
    ⟨some "YOUTUBER", none, none, none, none, none⟩ (some "SUPERSTAR") (some "VIP")
    (by decide) (by decide)

/-- C5: `formatHypixelRank` is total — every profile yields a determinate
`RankDisplay` — and the all-default profile (`rank = "NORMAL"`,
`monthlyPackageRank = "NONE"`, no purchased rank) falls through to the
`"Non-Rank"` display with neutral gray colours. -/
theorem formatHypixelRank_total_and_fallback :
    (∀ p : PlayerData, ∃ r : RankDisplay, formatHypixelRank p = r) ∧
    ∀ rpc ne sm, formatHypixelRank ⟨some "NORMAL", some "NONE", none, rpc, ne, sm⟩ =
      ⟨"Non-Rank", "#AAAAAA", "#AAAAAA"⟩ := by
  refine ⟨fun p => ⟨formatHypixelRank p, rfl⟩, fun rpc ne sm => ?_⟩
  simp [formatHypixelRank, truthy]

/-- C6: `calculateHypixelLevel` computes exactly
`floor(sqrt(2*networkExp + 30625)/50 - 2.5)` over the reals, and at the
minimum input `calculateHypixelLevel 0 = 1`. -/
theorem calculateHypixelLevel_exact_formula :
    (∀ e : ℕ, (calculateHypixelLevel e : ℤ) =
      ⌊Real.sqrt (2 * e + 30625) / 50 - 2.5⌋) ∧
    calculateHypixelLevel 0 = 1 := by
  have sqrt30625 : Nat.sqrt 30625 = 175 := by
    have h1 : 175 ≤ Nat.sqrt 30625 := Nat.le_sqrt.2 (by norm_num)
    have h2 : Nat.sqrt 30625 < 176 := Nat.sqrt_lt.2 (by norm_num)
    omega
  constructor
  · intro e
    have hcast : (2 * (e : ℝ) + 30625) = ((2 * e + 30625 : ℕ) : ℝ) := by push_cast; ring
    rw [hcast]
    set n : ℕ := 2 * e + 30625 with hn
    set s : ℕ := Nat.sqrt n with hs
    have h125 : 125 ≤ s := by
      rw [hs]
      exact Nat.le_sqrt.2 (by omega)
    set d : ℕ := (s - 125) / 50 with hd
    have hlevel : calculateHypixelLevel e = d := by
      simp only [calculateHypixelLevel, ← hn, ← hs, ← hd]
    have hA : 50 * d + 125 ≤ s := by omega
    have hB : s + 1 ≤ 50 * d + 175 := by omega
    have hsle : (s : ℝ) ≤ Real.sqrt n := by
      rw [hs]; exact Real.nat_sqrt_le_real_sqrt
    have hslt : Real.sqrt n < (s : ℝ) + 1 := by
      rw [hs]; exact Real.real_sqrt_lt_nat_sqrt_succ
    have hA' : (50 * (d : ℝ) + 125) ≤ (s : ℝ) := by exact_mod_cast hA
    have hB' : ((s : ℝ) + 1) ≤ 50 * (d : ℝ) + 175 := by exact_mod_cast hB
    rw [hlevel]
    symm
    rw [Int.floor_eq_iff]
    have h25 : (2.5 : ℝ) = 5 / 2 := by norm_num
    have hdd : (((d : ℕ) : ℤ) : ℝ) = (d : ℝ) := by push_cast; rfl
    rw [h25]
    constructor
    · rw [hdd]
      linarith [hsle, hA']
    · rw [hdd]
      linarith [hslt, hB']
  · rw [calculateHypixelLevel, show (2 * 0 + 30625 : ℕ) = 30625 by norm_num, sqrt30625]

/-- C7: `calculateHypixelLevel` is monotonically non-decreasing on its
(non-negative) domain. -/
theorem calculateHypixelLevel_monotone (a b : ℕ) (h : a ≤ b) :
    calculateHypixelLevel a ≤ calculateHypixelLevel b := by
  apply Nat.div_le_div_right
  apply Nat.sub_le_sub_right
  exact Nat.sqrt_le_sqrt (by omega)

/-- Witness for C7 at concrete inputs `0 ≤ 100000`. -/
theorem calculateHypixelLevel_monotone_witness :
    calculateHypixelLevel 0 ≤ calculateHypixelLevel 100000 :=
  calculateHypixelLevel_monotone 0 100000 (by decide)

/-- C1: on every `verify_modal` failure path — identity resolution failed,
attribute fetch failed, or the linked DISCORD handle differs from the
requester's tag — the handler returns the corresponding failure reply, the
whole state (verified set, cooldown map, persisted file) is unchanged, and
no role action is issued. -/
theorem verifyModalSubmit_failure_no_mutation (st : SystemState)
    (uid tag : String) (uuid : Option String) (pd : Option PlayerData)
    (gd : Option Guild) (now : Nat) (isAdmin : Bool) :
    (uuid = none →
      verifyModalSubmit st uid tag uuid pd gd now isAdmin
        = (st, .mojangFail, [])) ∧
    (∀ u, uuid = some u → pd = none →
      verifyModalSubmit st uid tag uuid pd gd now isAdmin
        = (st, .hypixelFail, [])) ∧
    (∀ u p, uuid = some u → pd = some p → discordLinked p tag = false →
      verifyModalSubmit st uid tag uuid pd gd now isAdmin
        = (st, .notLinked, [])) := by
  refine ⟨fun h => ?_, fun u hu hp => ?_, fun u p hu hp hl => ?_⟩
  · subst h
    rfl
  · subst hu
    subst hp
    rfl
  · subst hu
    subst hp
    simp [verifyModalSubmit, hl]

/-- Witness for C1: each failure path at a concrete state (profile with no
linked Discord account for the third). -/
theorem verifyModalSubmit_failure_no_mutation_witness :
    verifyModalSubmit initialState "user" "tag" none none none 0 false
      = (initialState, .mojangFail, []) ∧
    verifyModalSubmit initialState "user" "tag" (some "uuid") none none 0 false
      = (initialState, .hypixelFail, []) ∧
    verifyModalSubmit initialState "user" "tag" (some "uuid")
        (some ⟨none, none, none, none, none, none⟩) none 0 false
      = (initialState, .notLinked, []) :=
  ⟨(verifyModalSubmit_failure_no_mutation initialState "user" "tag" none none
      none 0 false).1 rfl,
   (verifyModalSubmit_failure_no_mutation initialState "user" "tag"
      (some "uuid") none none 0 false).2.1 "uuid" rfl rfl,
   (verifyModalSubmit_failure_no_mutation initialState "user" "tag"
      (some "uuid") (some ⟨none, none, none, none, none, none⟩) none 0
      false).2.2 "uuid" ⟨none, none, none, none, none, none⟩ rfl rfl rfl⟩

/-- C2: on the `verify_modal` success path the user is recorded as verified
(in memory and in the persisted file), and a cooldown entry of exactly
`now + 6*60*60*1000` is written precisely when the requester is not an
administrator; for an administrator the cooldown map is left untouched. -/
theorem verifyModalSubmit_success_verified_and_cooldown (st : SystemState)
    (uid tag u : String) (p : PlayerData) (gd : Option Guild) (now : Nat)
    (isAdmin : Bool) (hl : discordLinked p tag = true) :
    (verifyModalSubmit st uid tag (some u) (some p) gd now isAdmin).2.1
      = .success ∧
    uid ∈ (verifyModalSubmit st uid tag (some u) (some p) gd now isAdmin).1.verifiedUsers ∧
    uid ∈ (verifyModalSubmit st uid tag (some u) (some p) gd now isAdmin).1.file.verifiedUsers ∧
    (isAdmin = false →
      jsMapGet (verifyModalSubmit st uid tag (some u) (some p) gd now isAdmin).1.cooldowns uid
        = some (now + 6 * 60 * 60 * 1000)) ∧
    (isAdmin = true →
      (verifyModalSubmit st uid tag (some u) (some p) gd now isAdmin).1.cooldowns
        = st.cooldowns) := by
  have hstep : verifyModalSubmit st uid tag (some u) (some p) gd now isAdmin
      = (verifyStoreMutation st uid now isAdmin, ModalReply.success,
         [RoleAction.add "✅• Verified", RoleAction.remove "❌• Unverified"] ++
         (if jsOr (gd.map Guild.name) "No Guild" = "Heavenly Spirits"
          then [RoleAction.add "👼 • Angel"] else [])) := by
    simp only [verifyModalSubmit]
    rw [if_pos hl]
  rw [hstep]
  cases isAdmin with
  | true =>
    refine ⟨rfl, jsSetAdd_mem_self _ _, jsSetAdd_mem_self _ _, ?_, fun _ => rfl⟩
    intro hcontra
    exact nomatch hcontra
  | false =>
    refine ⟨rfl, jsSetAdd_mem_self _ _, jsSetAdd_mem_self _ _,
      fun _ => jsMapGet_jsMapSet_self _ _ _, ?_⟩
    intro hcontra
    exact nomatch hcontra

/-- Witness for C2 at a concrete linked profile and a non-admin requester. -/
theorem verifyModalSubmit_success_verified_and_cooldown_witness :
    (verifyModalSubmit initialState "user" "tag" (some "uuid")
      (some ⟨none, none, none, none, none, some ⟨some ⟨some "tag"⟩⟩⟩) none 1000
      false).2.1 = .success ∧
    "user" ∈ (verifyModalSubmit initialState "user" "tag" (some "uuid")
      (some ⟨none, none, none, none, none, some ⟨some ⟨some "tag"⟩⟩⟩) none 1000
      false).1.verifiedUsers ∧
    "user" ∈ (verifyModalSubmit initialState "user" "tag" (some "uuid")
      (some ⟨none, none, none, none, none, some ⟨some ⟨some "tag"⟩⟩⟩) none 1000
      false).1.file.verifiedUsers ∧
    (false = false →
      jsMapGet (verifyModalSubmit initialState "user" "tag" (some "uuid")
        (some ⟨none, none, none, none, none, some ⟨some ⟨some "tag"⟩⟩⟩) none 1000
        false).1.cooldowns "user" = some (1000 + 6 * 60 * 60 * 1000)) ∧
    (false = true →
      (verifyModalSubmit initialState "user" "tag" (some "uuid")
        (some ⟨none, none, none, none, none, some ⟨some ⟨some "tag"⟩⟩⟩) none 1000
        false).1.cooldowns = initialState.cooldowns) :=
  verifyModalSubmit_success_verified_and_cooldown initialState "user" "tag"
    "uuid" ⟨none, none, none, none, none, some ⟨some ⟨some "tag"⟩⟩⟩ none 1000
    false (by decide)

/-- C3: every store operation (verify-success mutation, unverify, load,
persist) preserves the cooldown-implies-verified invariant, and every state
reachable from the empty store by a sequence of operations satisfies it,
both in memory and in the persisted file. -/
theorem storeOps_preserve_cooldown_invariant :
    (∀ (st : SystemState) (op : StoreOp), stateInv st → stateInv (applyOp st op)) ∧
    ∀ ops : List StoreOp, stateInv (ops.foldl applyOp initialState) := by
  refine ⟨fun st op h => stateInv_applyOp op h, fun ops => ?_⟩
  refine stateInv_foldl ops initialState ⟨?_, ?_⟩
  · intro kv hkv
    exact absurd hkv (List.not_mem_nil kv)
  · intro kv hkv
    exact absurd hkv (List.not_mem_nil kv)

/-- Witness for C3: preservation applied at the initial state and a
concrete verify operation. -/
theorem storeOps_preserve_cooldown_invariant_witness :
    stateInv (applyOp initialState (.verify "user" 0 false)) :=
  storeOps_preserve_cooldown_invariant.1 initialState (.verify "user" 0 false)
    ⟨fun kv hkv => absurd hkv (List.not_mem_nil kv),
     fun kv hkv => absurd hkv (List.not_mem_nil kv)⟩

/-- C8: the cooldown gate of the `!verify` handler is strict: a non-admin
verified user is blocked with the remaining-hours notice exactly when
`now < cooldownUntil`, state unchanged; at `cooldownUntil = now` the gate
treats the cooldown as expired and the handler proceeds to the unverify
confirmation prompt (which also leaves the state unchanged — the handler
mutates nothing). -/
theorem verifyCommand_cooldown_strict (v : List String)
    (c : List (String × Nat)) (uid : String) (now : Nat) (hv : uid ∈ v) :
    (∀ cd, jsMapGet c uid = some cd → now < cd →
      verifyCommand v c uid now false
        = .cooldownNotice ((cd - now + 3600000 - 1) / 3600000)) ∧
    ((∃ h, verifyCommand v c uid now false = .cooldownNotice h) →
      ∃ cd, jsMapGet c uid = some cd ∧ now < cd) ∧
    (jsMapGet c uid = some now →
      verifyCommand v c uid now false = .unverifyPrompt) := by
  refine ⟨fun cd hcd hlt => ?_, fun ⟨h, hh⟩ => ?_, fun hcd => ?_⟩
  · rw [verifyCommand, if_pos hv, hcd]
    exact if_pos ⟨by omega, hlt, rfl⟩
  · rw [verifyCommand, if_pos hv] at hh
    cases hget : jsMapGet c uid with
    | none =>
      rw [hget] at hh
      cases hh
    | some cd =>
      rw [hget] at hh
      by_cases hcond : cd ≠ 0 ∧ now < cd ∧ (false : Bool) = false
      · exact ⟨cd, rfl, hcond.2.1⟩
      · have hh' : (if cd ≠ 0 ∧ now < cd ∧ (false : Bool) = false then
            VerifyCmdReply.cooldownNotice ((cd - now + 3600000 - 1) / 3600000)
          else VerifyCmdReply.unverifyPrompt) = VerifyCmdReply.cooldownNotice h := hh
        rw [if_neg hcond] at hh'
        cases hh'
  · rw [verifyCommand, if_pos hv, hcd]
    exact if_neg (fun hcond => absurd hcond.2.1 (lt_irrefl now))

/-- Witness for C8: a verified user `"u"` with cooldown 7200000 at
`now = 0` (blocked) and the boundary `cooldownUntil = now` (expired). -/
theorem verifyCommand_cooldown_strict_witness :
    (verifyCommand ["u"] [("u", 7200000)] "u" 0 false
      = .cooldownNotice ((7200000 - 0 + 3600000 - 1) / 3600000)) ∧
    verifyCommand ["u"] [("u", 7200000)] "u" 7200000 false = .unverifyPrompt :=
  ⟨(verifyCommand_cooldown_strict ["u"] [("u", 7200000)] "u" 0
      (by decide)).1 7200000 rfl (by decide),
   (verifyCommand_cooldown_strict ["u"] [("u", 7200000)] "u" 7200000
      (by decide)).2.2 rfl⟩

/-- C9: persisting a store snapshot with `saveStorage` and reloading it
with `loadStorage` reproduces the same verified set and cooldown map (hence
an equal set of `{userId, verified, cooldownUntil}` tuples), for every
well-formed store (no duplicate set elements or map keys — an invariant of
JavaScript `Set`/`Map`). -/
theorem loadStorage_saveStorage_roundtrip (st : SystemState)
    (h1 : st.verifiedUsers.Nodup) (h2 : (st.cooldowns.map Prod.fst).Nodup) :
    (loadStorage (saveStorage st)).verifiedUsers = st.verifiedUsers ∧
    (loadStorage (saveStorage st)).cooldowns = st.cooldowns ∧
    ∀ uid, ((uid ∈ (loadStorage (saveStorage st)).verifiedUsers ↔
        uid ∈ st.verifiedUsers) ∧
      jsMapGet (loadStorage (saveStorage st)).cooldowns uid
        = jsMapGet st.cooldowns uid) := by
  have hv : (loadStorage (saveStorage st)).verifiedUsers = st.verifiedUsers :=
    jsSetFrom_eq_self h1
  have hc : (loadStorage (saveStorage st)).cooldowns = st.cooldowns :=
    jsMapFrom_eq_self h2
  exact ⟨hv, hc, fun uid => ⟨by rw [hv], by rw [hc]⟩⟩

/-- Witness for C9 at a concrete two-user store. -/
theorem loadStorage_saveStorage_roundtrip_witness :
    (loadStorage (saveStorage ⟨["a", "b"], [("a", 5)], ⟨[], []⟩⟩)).verifiedUsers
      = ["a", "b"] ∧
    (loadStorage (saveStorage ⟨["a", "b"], [("a", 5)], ⟨[], []⟩⟩)).cooldowns
      = [("a", 5)] ∧
    ∀ uid, ((uid ∈ (loadStorage (saveStorage
          ⟨["a", "b"], [("a", 5)], ⟨[], []⟩⟩)).verifiedUsers ↔
        uid ∈ ["a", "b"]) ∧
      jsMapGet (loadStorage (saveStorage
          ⟨["a", "b"], [("a", 5)], ⟨[], []⟩⟩)).cooldowns uid
        = jsMapGet [("a", 5)] uid) :=
  loadStorage_saveStorage_roundtrip ⟨["a", "b"], [("a", 5)], ⟨[], []⟩⟩
    (by decide) (by decide)

/-- C10: the `!ha` relay fires for every message content that merely starts
with `"!ha"` (e.g. `"!happy"` relays `"ppy"`): with the role checks passed
it relays `content.slice(3).trim()`, and when that text is empty it replies
with the error and does not delete the invoking message. -/
theorem haCommand_fires_on_ha_start (content : String)
    (h : jsStartsWith content "!ha" = true) :
    (haCommand content true true
      = (if jsTrim (content.drop 3) = "" then HaAction.emptyError
         else HaAction.relay (jsTrim (content.drop 3)))) ∧
    (jsTrim (content.drop 3) = "" →
      deletesInvokingMessage (haCommand content true true) = false) ∧
    haCommand "!happy" true true = HaAction.relay "ppy" := by
  refine ⟨?_, fun he => ?_, by decide⟩
  · rw [haCommand, if_pos h]
    rfl
  · rw [haCommand, if_pos h]
    show deletesInvokingMessage
      (if jsTrim (content.drop 3) = "" then _ else _) = false
    rw [if_pos he]
    rfl

/-- Witness for C10 at `"!ha  "` (whitespace only: error, no delete) and
the `"!happy"` example. -/
theorem haCommand_fires_on_ha_start_witness :
    (haCommand "!ha  " true true
      = (if jsTrim ("!ha  ".drop 3) = "" then HaAction.emptyError
         else HaAction.relay (jsTrim ("!ha  ".drop 3)))) ∧
    (jsTrim ("!ha  ".drop 3) = "" →
      deletesInvokingMessage (haCommand "!ha  " true true) = false) ∧
    haCommand "!happy" true true = HaAction.relay "ppy" :=
  haCommand_fires_on_ha_start "!ha  " (by decide)

end HeavenlyAngel
